import Mathlib

/-!
# Verification of the decimal physics controller core

Shallow embedding of `src/core/controller.py`: the `Vector3D` decimal vector
algebra (including the fuelled Newton square-root `_decimal_sqrt`), the
`PhysicsObject` body record, and the `DecimalPhysicsController` simulation
state with its operations (`add_object`, `remove_object`,
`calculate_gravitational_force`, energies, Euler integration, `step`,
`run_simulation`, `get_object`, `get_object_state`, `reset_simulation`).

Modelling conventions:
* Python `Decimal` values are embedded as exact rationals (`ℚ`).  The
  50-significant-digit context rounding of each arithmetic operation is
  abstracted away; every algebraic step of the source is kept.  The
  convergence threshold `10^-(prec-5)` of the square-root iteration is kept
  exactly (`convergence_threshold = 10⁻⁴⁵` for the source's `prec = 50`).
* The unbounded `while True` loop of `_decimal_sqrt` is embedded with an
  explicit fuel parameter; running out of fuel yields the distinguished
  error `PhysError.outOfFuel`, which corresponds to no source behaviour
  (the source would simply keep iterating).  Termination is proved
  separately (the fuel needed exists).
* Python `ValueError`/`TypeError` exceptions are embedded as the
  `Except PhysError` monad, one constructor per distinct raise site.
* The float conversions at the snapshot/reporting boundary are kept as the
  underlying exact rationals (the spec declares this boundary display-only).
* Python's insertion-ordered `dict` of objects keyed by `obj.name` is
  embedded as a `List PhysicsObject` in insertion order; `add_object`
  enforces key uniqueness exactly as the source does.
-/

namespace DecimalPhysics

/-- Error outcomes of the embedded operations.  Each constructor corresponds
to one raise site of the source, except `outOfFuel`, which is the embedding
artifact for an unfinished `_decimal_sqrt` iteration. -/
inductive PhysError where
  | domainError          -- `_decimal_sqrt`: "Cannot calculate square root of negative number"
  | zeroVector           -- `normalize`: "Cannot normalize zero vector"
  | coincidentPositions  -- force / potential energy: "Objects cannot occupy the same position"
  | duplicateKey         -- `add_object`: "Object '...' already exists in simulation"
  | notFound             -- `remove_object` / `get_object_state`: "Object '...' not found"
  | outOfFuel            -- embedding artifact: Newton iteration fuel exhausted
  deriving DecidableEq

/-- `getcontext().prec = 50` of the source. -/
def PRECISION : ℕ := 50

/-- Stopping threshold `Decimal(10) ** -(getcontext().prec - 5)` of
`_decimal_sqrt`, i.e. `10⁻⁴⁵`. -/
def convergence_threshold : ℚ := 1 / 10 ^ (PRECISION - 5)

/-!
Universal physics constants with decimal precision (class
`PhysicsConstants` of the source), as exact rationals.
-/

namespace PhysicsConstants

def GRAVITATIONAL_CONSTANT : ℚ := 667430 / 10 ^ 16       -- 6.67430E-11
def SPEED_OF_LIGHT : ℚ := 299792458
def PLANCK_CONSTANT : ℚ := 662607015 / 10 ^ 42           -- 6.62607015E-34
def BOLTZMANN_CONSTANT : ℚ := 1380649 / 10 ^ 29          -- 1.380649E-23
def AVOGADRO_NUMBER : ℚ := 602214076 * 10 ^ 15           -- 6.02214076E23
def ELEMENTARY_CHARGE : ℚ := 1602176634 / 10 ^ 28        -- 1.602176634E-19
def VACUUM_PERMITTIVITY : ℚ := 88541878128 / 10 ^ 22     -- 8.8541878128E-12
def VACUUM_PERMEABILITY : ℚ := 125663706212 / 10 ^ 17    -- 1.25663706212E-6

end PhysicsConstants

/-- Supported simulation modes (enum `SimulationMode`). -/
inductive SimulationMode where
  | classicalMechanics
  | relativistic
  | quantum
  | electromagnetic
  deriving DecidableEq

/-- 3D vector with decimal components (dataclass `Vector3D`). -/
structure Vector3D where
  x : ℚ
  y : ℚ
  z : ℚ
  deriving DecidableEq

/-- One Newton iteration step `x_new = (x + value / x) / 2` of
`_decimal_sqrt`. -/
def newtonStep (value x : ℚ) : ℚ := (x + value / x) / 2

/-- The `while True` loop of `_decimal_sqrt`, with explicit fuel:
compute `x_new`, return it once `abs (x_new - x) < 10^-(prec-5)`,
otherwise continue from `x_new`. -/
def newtonLoop (value : ℚ) : ℚ → ℕ → Except PhysError ℚ
  | _, 0 => .error .outOfFuel
  | x, fuel + 1 =>
    let xNew := newtonStep value x
    if |xNew - x| < convergence_threshold then .ok xNew
    else newtonLoop value xNew fuel

/-- `Vector3D._decimal_sqrt`: guard against negative input, return 0 for 0,
otherwise run Newton's method seeded with the input value itself. -/
def decimal_sqrt (value : ℚ) (fuel : ℕ) : Except PhysError ℚ :=
  if value < 0 then .error .domainError
  else if value = 0 then .ok 0
  else newtonLoop value value fuel

/-- `Vector3D.magnitude`: `_decimal_sqrt (x² + y² + z²)`. -/
def Vector3D.magnitude (v : Vector3D) (fuel : ℕ) : Except PhysError ℚ :=
  decimal_sqrt (v.x ^ 2 + v.y ^ 2 + v.z ^ 2) fuel

/-- `Vector3D.dot_product`. -/
def Vector3D.dot_product (v w : Vector3D) : ℚ :=
  v.x * w.x + v.y * w.y + v.z * w.z

/-- `Vector3D.cross_product`. -/
def Vector3D.cross_product (v w : Vector3D) : Vector3D :=
  ⟨v.y * w.z - v.z * w.y, v.z * w.x - v.x * w.z, v.x * w.y - v.y * w.x⟩

/-- `Vector3D.normalize`: divide each component by the magnitude; raise on a
zero magnitude. -/
def Vector3D.normalize (v : Vector3D) (fuel : ℕ) : Except PhysError Vector3D :=
  match v.magnitude fuel with
  | .error e => .error e
  | .ok mag =>
    if mag = 0 then .error .zeroVector
    else .ok ⟨v.x / mag, v.y / mag, v.z / mag⟩

/-- A physical object with mass and position (dataclass `PhysicsObject`).
The source's `velocity`/`acceleration` defaults are the zero vector. -/
structure PhysicsObject where
  name : String
  mass : ℚ
  position : Vector3D
  velocity : Vector3D := ⟨0, 0, 0⟩
  acceleration : Vector3D := ⟨0, 0, 0⟩
  deriving DecidableEq

/-- `PhysicsObject.__post_init__` of the source: it coerces `mass` to
`Decimal` and type-checks that `position`, `velocity` and `acceleration` are
`Vector3D` instances (static in this typed embedding).  It contains no mass
validation whatsoever, so it has no reachable error path here: every record,
whatever its mass, is accepted unchanged. -/
def PhysicsObject.post_init (o : PhysicsObject) : Except PhysError PhysicsObject :=
  .ok o

/-- The per-object part of a recorded snapshot (the inner dict of
`run_simulation`).  The source converts the components to float for
display; the exact values are kept here. -/
structure ObjectSnapshot where
  position : Vector3D
  velocity : Vector3D
  acceleration : Vector3D
  deriving DecidableEq

/-- Per-step state snapshot recorded by `run_simulation`: time, total energy
and, per object name, position/velocity/acceleration. -/
structure Snapshot where
  time : ℚ
  total_energy : ℚ
  objects : List (String × ObjectSnapshot)
  deriving DecidableEq

/-- State of `DecimalPhysicsController`: the insertion-ordered body mapping,
time step (default `Decimal('0.01')`), current time, cached total energy and
the snapshot history. -/
structure ControllerState where
  mode : SimulationMode
  objects : List PhysicsObject
  time_step : ℚ
  current_time : ℚ
  total_energy : ℚ
  simulation_history : List Snapshot
  deriving DecidableEq

/-- `DecimalPhysicsController.__init__`. -/
def initController (mode : SimulationMode) : ControllerState :=
  { mode := mode
    objects := []
    time_step := 1 / 100
    current_time := 0
    total_energy := 0
    simulation_history := [] }

/-- `set_time_step`. -/
def set_time_step (s : ControllerState) (t : ℚ) : ControllerState :=
  { s with time_step := t }

/-- Whether a body of the given name is registered. -/
def containsName (s : ControllerState) (n : String) : Bool :=
  s.objects.any (fun o => o.name = n)

/-- `add_object`: raise `duplicateKey` when the name exists, else insert at
the end of the ordered mapping. -/
def add_object (s : ControllerState) (o : PhysicsObject) : Except PhysError ControllerState :=
  if containsName s o.name then .error .duplicateKey
  else .ok { s with objects := s.objects ++ [o] }

/-- `remove_object`: raise `notFound` when the name is absent, else delete
that entry. -/
def remove_object (s : ControllerState) (n : String) : Except PhysError ControllerState :=
  if containsName s n then .ok { s with objects := s.objects.filter (fun o => o.name ≠ n) }
  else .error .notFound

/-- `get_object`: `self.objects.get(name)` — an `Option`, `none` when the
name is absent.  The source returns `None` here; it does not raise. -/
def get_object (s : ControllerState) (n : String) : Option PhysicsObject :=
  s.objects.find? (fun o => o.name = n)

/-- The state dictionary returned by `get_object_state` (float boundary
kept exact). -/
structure ObjectState where
  name : String
  mass : ℚ
  position : Vector3D
  velocity : Vector3D
  acceleration : Vector3D
  kinetic_energy : ℚ
  deriving DecidableEq

/-- `get_object_state`: look the object up and raise `notFound` when absent;
otherwise report name, mass, position, velocity, acceleration and kinetic
energy. -/
def get_object_state (s : ControllerState) (n : String) :
    Except PhysError ObjectState :=
  match get_object s n with
  | none => .error .notFound
  | some o =>
    .ok ⟨o.name, o.mass, o.position, o.velocity, o.acceleration,
      1 / 2 * o.mass * o.velocity.dot_product o.velocity⟩

/-- Displacement `obj2.position - obj1.position` computed componentwise at
the head of `calculate_gravitational_force` and
`calculate_gravitational_potential_energy`. -/
def displacement (o1 o2 : PhysicsObject) : Vector3D :=
  ⟨o2.position.x - o1.position.x, o2.position.y - o1.position.y,
   o2.position.z - o1.position.z⟩

/-- `calculate_gravitational_force`: displacement, its magnitude, the
coincident-position guard, `F = G·m₁·m₂ / r²`, and the normalized direction
scaled by `F`. -/
def calculate_gravitational_force (o1 o2 : PhysicsObject) (fuel : ℕ) :
    Except PhysError Vector3D :=
  let disp := displacement o1 o2
  match disp.magnitude fuel with
  | .error e => .error e
  | .ok distance =>
    if distance = 0 then .error .coincidentPositions
    else
      let forceMagnitude :=
        PhysicsConstants.GRAVITATIONAL_CONSTANT * o1.mass * o2.mass / distance ^ 2
      match disp.normalize fuel with
      | .error e => .error e
      | .ok direction =>
        .ok ⟨direction.x * forceMagnitude, direction.y * forceMagnitude,
          direction.z * forceMagnitude⟩

/-- `calculate_kinetic_energy`: `0.5 · m · (v ⬝ v)`. -/
def calculate_kinetic_energy (o : PhysicsObject) : ℚ :=
  1 / 2 * o.mass * o.velocity.dot_product o.velocity

/-- `calculate_gravitational_potential_energy`: `-G·m₁·m₂ / r` with the same
coincident-position guard as the force. -/
def calculate_gravitational_potential_energy (o1 o2 : PhysicsObject) (fuel : ℕ) :
    Except PhysError ℚ :=
  match (displacement o1 o2).magnitude fuel with
  | .error e => .error e
  | .ok distance =>
    if distance = 0 then .error .coincidentPositions
    else .ok (-PhysicsConstants.GRAVITATIONAL_CONSTANT * o1.mass * o2.mass / distance)

/-- `update_positions`: Euler step `x ← x + v·dt` on every object. -/
def update_positions (s : ControllerState) : ControllerState :=
  { s with objects := s.objects.map (fun o =>
      { o with position := ⟨o.position.x + o.velocity.x * s.time_step,
          o.position.y + o.velocity.y * s.time_step,
          o.position.z + o.velocity.z * s.time_step⟩ }) }

/-- `update_velocities`: Euler step `v ← v + a·dt` on every object. -/
def update_velocities (s : ControllerState) : ControllerState :=
  { s with objects := s.objects.map (fun o =>
      { o with velocity := ⟨o.velocity.x + o.acceleration.x * s.time_step,
          o.velocity.y + o.acceleration.y * s.time_step,
          o.velocity.z + o.acceleration.z * s.time_step⟩ }) }

/-- `reset_accelerations`: zero every object's acceleration. -/
def reset_accelerations (s : ControllerState) : ControllerState :=
  { s with objects := s.objects.map (fun o => { o with acceleration := ⟨0, 0, 0⟩ }) }

/-- Inner loop of `apply_forces` for a fixed `obj1`: fold over the tail
`list[i+1:]`, accumulating `F/m₁` onto `obj1`'s acceleration and subtracting
the mass-scaled reaction `(F/m₁)·m₁/m₂` from each partner's acceleration. -/
def accumulatePairs (fuel : ℕ) :
    PhysicsObject → List PhysicsObject → Except PhysError (PhysicsObject × List PhysicsObject)
  | o1, [] => .ok (o1, [])
  | o1, o2 :: rest =>
    match calculate_gravitational_force o1 o2 fuel with
    | .error e => .error e
    | .ok force =>
      let ax := force.x / o1.mass
      let ay := force.y / o1.mass
      let az := force.z / o1.mass
      let o1' := { o1 with acceleration := ⟨o1.acceleration.x + ax,
        o1.acceleration.y + ay, o1.acceleration.z + az⟩ }
      let o2' := { o2 with acceleration := ⟨o2.acceleration.x - ax * o1.mass / o2.mass,
        o2.acceleration.y - ay * o1.mass / o2.mass,
        o2.acceleration.z - az * o1.mass / o2.mass⟩ }
      match accumulatePairs fuel o1' rest with
      | .error e => .error e
      | .ok (o1'', rest') => .ok (o1'', o2' :: rest')

/-- Outer loop of `apply_forces`: enumerate `obj1` in insertion order,
running the inner pair loop against every later object.  The first argument
is the number of objects still to process; it is always called with the
length of the list (which the inner pass preserves), and exists only to
exhibit structural recursion — the final catch-all case is unreachable. -/
def applyForcesLoop (fuel : ℕ) : ℕ → List PhysicsObject → Except PhysError (List PhysicsObject)
  | _, [] => .ok []
  | n + 1, o :: rest =>
    match accumulatePairs fuel o rest with
    | .error e => .error e
    | .ok (o', rest') =>
      match applyForcesLoop fuel n rest' with
      | .error e => .error e
      | .ok rest'' => .ok (o' :: rest'')
  | 0, _ :: _ => .ok []

/-- `apply_forces`: reset all accelerations, then the pairwise loops. -/
def apply_forces (s : ControllerState) (fuel : ℕ) : Except PhysError ControllerState :=
  let s0 := reset_accelerations s
  match applyForcesLoop fuel s0.objects.length s0.objects with
  | .error e => .error e
  | .ok objs => .ok { s0 with objects := objs }

/-- Kinetic-energy accumulation of `calculate_total_energy`. -/
def totalKinetic (objs : List PhysicsObject) : ℚ :=
  objs.foldl (fun acc o => acc + calculate_kinetic_energy o) 0

/-- One row of the pairwise potential-energy accumulation (a fixed `obj1`
against all later objects). -/
def peRow (fuel : ℕ) (o1 : PhysicsObject) : List PhysicsObject → ℚ → Except PhysError ℚ
  | [], acc => .ok acc
  | o2 :: rest, acc =>
    match calculate_gravitational_potential_energy o1 o2 fuel with
    | .error e => .error e
    | .ok pe => peRow fuel o1 rest (acc + pe)

/-- The full pairwise potential-energy accumulation. -/
def peAll (fuel : ℕ) : List PhysicsObject → ℚ → Except PhysError ℚ
  | [], acc => .ok acc
  | o :: rest, acc =>
    match peRow fuel o rest acc with
    | .error e => .error e
    | .ok acc' => peAll fuel rest acc'

/-- `calculate_total_energy`: total kinetic plus pairwise potential energy;
caches the sum in `total_energy` and returns it. -/
def calculate_total_energy (s : ControllerState) (fuel : ℕ) :
    Except PhysError (ℚ × ControllerState) :=
  match peAll fuel s.objects 0 with
  | .error e => .error e
  | .ok pe =>
    let total := totalKinetic s.objects + pe
    .ok (total, { s with total_energy := total })

/-- `step`: apply forces, update velocities, update positions, advance
`current_time` by `time_step`, recompute and cache `total_energy`. -/
def step (s : ControllerState) (fuel : ℕ) : Except PhysError ControllerState :=
  match apply_forces s fuel with
  | .error e => .error e
  | .ok s1 =>
    let s2 := update_velocities s1
    let s3 := update_positions s2
    let s4 := { s3 with current_time := s3.current_time + s3.time_step }
    match calculate_total_energy s4 fuel with
    | .error e => .error e
    | .ok (_, s5) => .ok s5

/-- The snapshot recorded after each step of `run_simulation`. -/
def takeSnapshot (s : ControllerState) : Snapshot :=
  ⟨s.current_time, s.total_energy,
    s.objects.map (fun o => (o.name, ⟨o.position, o.velocity, o.acceleration⟩))⟩

/-- Loop of `run_simulation`: `steps` iterations of `step`, each followed by
appending a snapshot to the local history list, which is finally extended
onto the persistent `simulation_history` and returned. -/
def runSimAux (fuel : ℕ) : ℕ → ControllerState → List Snapshot →
    Except PhysError (List Snapshot × ControllerState)
  | 0, s, acc => .ok (acc, { s with simulation_history := s.simulation_history ++ acc })
  | n + 1, s, acc =>
    match step s fuel with
    | .error e => .error e
    | .ok s' => runSimAux fuel n s' (acc ++ [takeSnapshot s'])

/-- `run_simulation`. -/
def run_simulation (steps : ℕ) (s : ControllerState) (fuel : ℕ) :
    Except PhysError (List Snapshot × ControllerState) :=
  runSimAux fuel steps s []

/-- Iterated `step` (the "number of completed steps" bookkeeping). -/
def stepN (fuel : ℕ) : ℕ → ControllerState → Except PhysError ControllerState
  | 0, s => .ok s
  | n + 1, s =>
    match step s fuel with
    | .error e => .error e
    | .ok s' => stepN fuel n s'

/-- `reset_simulation`: zero `current_time` and `total_energy`, clear the
history, and reset all accelerations; bodies otherwise untouched. -/
def reset_simulation (s : ControllerState) : ControllerState :=
  reset_accelerations
    { s with current_time := 0, total_energy := 0, simulation_history := [] }

/-- Pure Newton iterate sequence seeded with the value itself (used to
reason about `newtonLoop`). -/
def newtonIter (value : ℚ) : ℕ → ℚ
  | 0 => value
  | n + 1 => newtonStep value (newtonIter value n)

/-! ## Basic lemmas about the Newton square-root loop -/

theorem newtonLoop_succ (value x : ℚ) (fuel : ℕ) :
    newtonLoop value x (fuel + 1) =
      if |newtonStep value x - x| < convergence_threshold then .ok (newtonStep value x)
      else newtonLoop value (newtonStep value x) fuel := rfl

theorem newtonStep_pos {value x : ℚ} (hv : 0 < value) (hx : 0 < x) :
    0 < newtonStep value x := by
  unfold newtonStep
  positivity

theorem newtonLoop_pos {value : ℚ} (hv : 0 < value) :
    ∀ fuel x r, 0 < x → newtonLoop value x fuel = .ok r → 0 < r := by
  intro fuel
  induction fuel with
  | zero => intro x r _ h; simp [newtonLoop] at h
  | succ n ih =>
    intro x r hx h
    rw [newtonLoop_succ] at h
    split at h
    · cases h
      exact newtonStep_pos hv hx
    · exact ih _ r (newtonStep_pos hv hx) h

theorem newtonLoop_error {value : ℚ} :
    ∀ fuel x e, newtonLoop value x fuel = .error e → e = .outOfFuel := by
  intro fuel
  induction fuel with
  | zero => intro x e h; simpa [newtonLoop] using h.symm
  | succ n ih =>
    intro x e h
    rw [newtonLoop_succ] at h
    split at h
    · cases h
    · exact ih _ e h

theorem decimal_sqrt_neg {value : ℚ} (h : value < 0) (fuel : ℕ) :
    decimal_sqrt value fuel = .error .domainError := by
  simp [decimal_sqrt, h]

theorem decimal_sqrt_zero (fuel : ℕ) : decimal_sqrt 0 fuel = .ok 0 := by
  simp [decimal_sqrt]

theorem decimal_sqrt_of_pos {value : ℚ} (h : 0 < value) (fuel : ℕ) :
    decimal_sqrt value fuel = newtonLoop value value fuel := by
  simp [decimal_sqrt, not_lt.mpr h.le, h.ne']

theorem decimal_sqrt_pos {value : ℚ} {fuel : ℕ} {r : ℚ} (hv : 0 < value)
    (h : decimal_sqrt value fuel = .ok r) : 0 < r := by
  rw [decimal_sqrt_of_pos hv] at h
  exact newtonLoop_pos hv fuel value r hv h

theorem decimal_sqrt_ok_nonneg {value : ℚ} {fuel : ℕ} {r : ℚ}
    (h : decimal_sqrt value fuel = .ok r) : 0 ≤ r := by
  rcases lt_trichotomy value 0 with hv | hv | hv
  · rw [decimal_sqrt_neg hv] at h; cases h
  · subst hv; rw [decimal_sqrt_zero] at h; cases h; exact le_refl 0
  · exact (decimal_sqrt_pos hv h).le

theorem decimal_sqrt_domainError_iff {value : ℚ} {fuel : ℕ} :
    decimal_sqrt value fuel = .error .domainError ↔ value < 0 := by
  constructor
  · intro h
    by_contra hv
    rcases eq_or_lt_of_le (not_lt.mp hv) with hv0 | hv0
    · rw [← hv0, decimal_sqrt_zero] at h; cases h
    · rw [decimal_sqrt_of_pos hv0] at h
      cases newtonLoop_error fuel value _ h
  · intro h; exact decimal_sqrt_neg h fuel

/-! ## Sum-of-squares and magnitude lemmas -/

theorem sumsq_nonneg (v : Vector3D) : 0 ≤ v.x ^ 2 + v.y ^ 2 + v.z ^ 2 := by
  positivity

theorem sumsq_eq_zero_iff (v : Vector3D) :
    v.x ^ 2 + v.y ^ 2 + v.z ^ 2 = 0 ↔ v = ⟨0, 0, 0⟩ := by
  constructor
  · intro h
    have hx : v.x = 0 := by nlinarith [sq_nonneg v.x, sq_nonneg v.y, sq_nonneg v.z]
    have hy : v.y = 0 := by nlinarith [sq_nonneg v.x, sq_nonneg v.y, sq_nonneg v.z]
    have hz : v.z = 0 := by nlinarith [sq_nonneg v.x, sq_nonneg v.y, sq_nonneg v.z]
    cases v
    simp_all
  · intro h; subst h; norm_num

theorem magnitude_zero (fuel : ℕ) :
    Vector3D.magnitude ⟨0, 0, 0⟩ fuel = .ok 0 := by
  simp [Vector3D.magnitude, decimal_sqrt_zero]

theorem magnitude_pos {v : Vector3D} {fuel : ℕ} {r : ℚ} (hv : v ≠ ⟨0, 0, 0⟩)
    (h : Vector3D.magnitude v fuel = .ok r) : 0 < r := by
  have hs : 0 < v.x ^ 2 + v.y ^ 2 + v.z ^ 2 :=
    lt_of_le_of_ne (sumsq_nonneg v) (fun hc => hv ((sumsq_eq_zero_iff v).mp hc.symm))
  exact decimal_sqrt_pos hs h

theorem magnitude_ok_nonneg {v : Vector3D} {fuel : ℕ} {r : ℚ}
    (h : Vector3D.magnitude v fuel = .ok r) : 0 ≤ r :=
  decimal_sqrt_ok_nonneg h

theorem magnitude_eq_zero_iff {v : Vector3D} {fuel : ℕ} {r : ℚ}
    (h : Vector3D.magnitude v fuel = .ok r) : r = 0 ↔ v = ⟨0, 0, 0⟩ := by
  constructor
  · intro hr
    by_contra hv
    exact absurd hr (magnitude_pos hv h).ne'
  · intro hv
    subst hv
    rw [magnitude_zero] at h
    cases h
    rfl

theorem magnitude_ne_domainError (v : Vector3D) (fuel : ℕ) :
    Vector3D.magnitude v fuel ≠ .error .domainError := by
  intro h
  exact absurd (decimal_sqrt_domainError_iff.mp h) (not_lt.mpr (sumsq_nonneg v))

/-! ## Normalize lemmas -/

theorem normalize_of_magnitude_ok {v : Vector3D} {fuel : ℕ} {r : ℚ}
    (h : Vector3D.magnitude v fuel = .ok r) (hr : r ≠ 0) :
    Vector3D.normalize v fuel = .ok ⟨v.x / r, v.y / r, v.z / r⟩ := by
  simp [Vector3D.normalize, h, hr]

theorem normalize_zero (fuel : ℕ) :
    Vector3D.normalize ⟨0, 0, 0⟩ fuel = .error .zeroVector := by
  simp [Vector3D.normalize, magnitude_zero]

theorem normalize_zeroVector_iff {v : Vector3D} {fuel : ℕ} {r : ℚ}
    (h : Vector3D.magnitude v fuel = .ok r) :
    Vector3D.normalize v fuel = .error .zeroVector ↔ r = 0 := by
  constructor
  · intro hn
    by_contra hr
    rw [normalize_of_magnitude_ok h hr] at hn
    cases hn
  · intro hr
    simp [Vector3D.normalize, h, hr]

/-! ## Field bookkeeping of the controller operations -/

theorem apply_forces_fields {s : ControllerState} {fuel : ℕ} {s' : ControllerState}
    (h : apply_forces s fuel = .ok s') :
    s'.time_step = s.time_step ∧ s'.current_time = s.current_time ∧
      s'.simulation_history = s.simulation_history ∧
      s'.total_energy = s.total_energy ∧ s'.mode = s.mode := by
  unfold apply_forces at h
  dsimp only at h
  split at h
  · cases h
  · cases h
    simp [reset_accelerations]

theorem calculate_total_energy_ok {s : ControllerState} {fuel : ℕ} {e : ℚ}
    {s' : ControllerState} (h : calculate_total_energy s fuel = .ok (e, s')) :
    s' = { s with total_energy := e } := by
  unfold calculate_total_energy at h
  split at h
  · cases h
  · simp only [Except.ok.injEq, Prod.mk.injEq] at h
    obtain ⟨he, hs⟩ := h
    subst he
    exact hs.symm

theorem step_fields {s : ControllerState} {fuel : ℕ} {s' : ControllerState}
    (h : step s fuel = .ok s') :
    s'.current_time = s.current_time + s.time_step ∧ s'.time_step = s.time_step ∧
      s'.simulation_history = s.simulation_history ∧ s'.mode = s.mode := by
  unfold step at h
  split at h
  · cases h
  · rename_i s1 h1
    dsimp only at h
    split at h
    · cases h
    · rename_i p h2
      cases h
      obtain ⟨ht, hc, hh, _, hm⟩ := apply_forces_fields h1
      have h5 := calculate_total_energy_ok h2
      subst h5
      simp [update_positions, update_velocities, ht, hc, hh, hm]

theorem stepN_fields {fuel : ℕ} :
    ∀ n (s s' : ControllerState), stepN fuel n s = .ok s' →
      s'.current_time = s.current_time + n * s.time_step ∧
        s'.time_step = s.time_step ∧
        s'.simulation_history = s.simulation_history := by
  intro n
  induction n with
  | zero =>
    intro s s' h
    cases h
    simp
  | succ n ih =>
    intro s s' h
    unfold stepN at h
    split at h
    · cases h
    · rename_i s1 h1
      obtain ⟨hc, ht, hh, _⟩ := step_fields h1
      obtain ⟨hc', ht', hh'⟩ := ih s1 s' h
      refine ⟨?_, by rw [ht', ht], by rw [hh', hh]⟩
      rw [hc', hc, ht]
      push_cast
      ring

theorem runSimAux_spec {fuel : ℕ} :
    ∀ n (s : ControllerState) acc snaps s',
      runSimAux fuel n s acc = .ok (snaps, s') →
      ∃ nw, snaps = acc ++ nw ∧ nw.length = n ∧
        nw.map Snapshot.time =
          (List.range n).map (fun i => s.current_time + (i + 1 : ℕ) * s.time_step) ∧
        s'.simulation_history = s.simulation_history ++ snaps := by
  intro n
  induction n with
  | zero =>
    intro s acc snaps s' h
    unfold runSimAux at h
    simp only [Except.ok.injEq, Prod.mk.injEq] at h
    obtain ⟨h1, h2⟩ := h
    subst h1
    subst h2
    exact ⟨[], by simp, rfl, by simp, by simp⟩
  | succ n ih =>
    intro s acc snaps s' h
    unfold runSimAux at h
    split at h
    · cases h
    · rename_i s1 h1
      obtain ⟨nw, hsn, hlen, htimes, hhist⟩ := ih s1 (acc ++ [takeSnapshot s1]) snaps s' h
      obtain ⟨hct, hts, hsh, _⟩ := step_fields h1
      refine ⟨takeSnapshot s1 :: nw, by rw [hsn]; simp, by simpa using hlen, ?_, ?_⟩
      · rw [List.range_succ_eq_map, List.map_cons, List.map_cons, List.map_map]
        simp only [List.cons.injEq]
        constructor
        · simp [takeSnapshot, hct]
        · rw [htimes]
          apply List.map_congr_left
          intro i _
          simp only [Function.comp]
          rw [hct, hts]
          push_cast
          ring
      · rw [hhist, hsh, hsn]

/-- The claim C3 concerns: `run_simulation n` iterates `step` exactly `n`
times (this is its definition through `runSimAux`), returns exactly the `n`
new snapshots with times spaced one `time_step` apart starting one step
after the entry time, and appends exactly those snapshots to the persistent
history.  The times are strictly increasing whenever the configured
`time_step` is positive (the default `0.01` is; a zero or negative
`time_step`, which `set_time_step` accepts, breaks strictness — see the
counterexample). -/
theorem C3_run_simulation_spec :
    ∀ (n : ℕ) (s : ControllerState) (fuel : ℕ) snaps s',
      run_simulation n s fuel = .ok (snaps, s') →
      snaps.length = n ∧
      snaps.map Snapshot.time =
        (List.range n).map (fun i => s.current_time + (i + 1 : ℕ) * s.time_step) ∧
      s'.simulation_history = s.simulation_history ++ snaps ∧
      (0 < s.time_step → List.Chain' (· < ·) (snaps.map Snapshot.time)) := by
  intro n s fuel snaps s' h
  obtain ⟨nw, hsn, hlen, htimes, hhist⟩ := runSimAux_spec n s [] snaps s' h
  rw [List.nil_append] at hsn
  subst hsn
  refine ⟨by rw [hlen], htimes, hhist, ?_⟩
  · intro hdt
    rw [htimes]
    apply List.Pairwise.chain'
    rw [List.pairwise_map]
    refine (List.pairwise_lt_range n).imp ?_
    intro a b hab
    have : ((a : ℚ) + 1) * s.time_step < ((b : ℚ) + 1) * s.time_step := by
      have : (a : ℚ) < b := by exact_mod_cast hab
      nlinarith
    push_cast
    linarith

/-- Witness for C3: on a fresh controller (no bodies, default time step
`0.01`), `run_simulation 2` succeeds, returns 2 snapshots and their times
are strictly increasing. -/
theorem C3_run_simulation_spec_witness :
    ∃ snaps s',
      run_simulation 2 (initController .classicalMechanics) 0 = .ok (snaps, s') ∧
        snaps.length = 2 ∧ List.Chain' (· < ·) (snaps.map Snapshot.time) := by
  have hrun : run_simulation 2 (initController .classicalMechanics) 0 =
      .ok ([⟨1 / 100, 0, []⟩, ⟨2 / 100, 0, []⟩],
        ⟨.classicalMechanics, [], 1 / 100, 2 / 100, 0,
          [⟨1 / 100, 0, []⟩, ⟨2 / 100, 0, []⟩]⟩) := by
    norm_num [run_simulation, runSimAux, step, apply_forces, applyForcesLoop,
      reset_accelerations, update_velocities, update_positions, calculate_total_energy,
      peAll, totalKinetic, takeSnapshot, initController]
  have h := C3_run_simulation_spec 2 (initController .classicalMechanics) 0 _ _ hrun
  exact ⟨_, _, hrun, h.1, h.2.2.2 (by norm_num [initController])⟩

/-- Counterexample for C3 as frozen: with the time step set to `0` (which
`set_time_step` accepts), `run_simulation 2` still returns 2 snapshots, but
their time fields are `0, 0` — not strictly increasing. -/
theorem C3_strict_increase_counterexample :
    run_simulation 2 (set_time_step (initController .classicalMechanics) 0) 0 =
      .ok ([⟨0, 0, []⟩, ⟨0, 0, []⟩],
        ⟨.classicalMechanics, [], 0, 0, 0, [⟨0, 0, []⟩, ⟨0, 0, []⟩]⟩) ∧
      ¬ List.Chain' (· < ·)
        (([⟨0, 0, []⟩, ⟨0, 0, []⟩] : List Snapshot).map Snapshot.time) := by
  constructor
  · norm_num [run_simulation, runSimAux, step, apply_forces, applyForcesLoop,
      reset_accelerations, update_velocities, update_positions, calculate_total_energy,
      peAll, totalKinetic, takeSnapshot, set_time_step, initController]
  · simp [Snapshot.time]

/-- The claim C4 concerns: `current_time` starts at `0`; a completed `step`
advances it by exactly one `time_step` (and leaves `time_step` itself
unchanged); `step` is definitionally the fixed pipeline apply_forces →
update_velocities → update_positions → advance time → recompute and cache
`total_energy`; and after `n` completed steps from a fresh controller
`current_time = n · time_step` exactly. -/
theorem C4_time_bookkeeping :
    (∀ mode, (initController mode).current_time = 0) ∧
    (∀ (s : ControllerState) (fuel : ℕ) s', step s fuel = .ok s' →
      s'.current_time = s.current_time + s.time_step ∧ s'.time_step = s.time_step) ∧
    (∀ (s : ControllerState) (fuel : ℕ), step s fuel =
      match apply_forces s fuel with
      | .error e => .error e
      | .ok s1 =>
        match calculate_total_energy
            { update_positions (update_velocities s1) with
              current_time := (update_positions (update_velocities s1)).current_time +
                (update_positions (update_velocities s1)).time_step } fuel with
        | .error e => .error e
        | .ok (_, s5) => .ok s5) ∧
    (∀ (fuel n : ℕ) (mode : SimulationMode) s',
      stepN fuel n (initController mode) = .ok s' →
      s'.current_time = n * (initController mode).time_step) := by
  refine ⟨fun _ => rfl, ?_, fun s fuel => rfl, ?_⟩
  · intro s fuel s' h
    obtain ⟨h1, h2, _⟩ := step_fields h
    exact ⟨h1, h2⟩
  · intro fuel n mode s' h
    obtain ⟨h1, _, _⟩ := stepN_fields n (initController mode) s' h
    simpa [initController] using h1

/-- Witness for C4: three successful steps of a fresh (empty) controller
land `current_time` exactly on `3 × 0.01`. -/
theorem C4_time_bookkeeping_witness :
    ∃ s', stepN 0 3 (initController .classicalMechanics) = .ok s' ∧
      s'.current_time = 3 * (initController .classicalMechanics).time_step := by
  have hrun : stepN 0 3 (initController .classicalMechanics) =
      .ok ⟨.classicalMechanics, [], 1 / 100, 3 / 100, 0, []⟩ := by
    norm_num [stepN, step, apply_forces, applyForcesLoop, reset_accelerations,
      update_velocities, update_positions, calculate_total_energy, peAll, totalKinetic,
      initController]
  exact ⟨_, hrun, C4_time_bookkeeping.2.2.2 0 3 .classicalMechanics _ hrun⟩

/-- The claim C7 concerns, amended: adding a body whose name exists raises
`duplicateKey` (and, the embedding being functional, the error case carries
no state change at all, so the mapping and the existing entry are
untouched); adding a fresh name appends it; removing an absent name raises
`notFound` with no other effect, removing a present one deletes exactly
that entry; `get_object` on an absent name returns `none` — it does NOT
raise — while `get_object_state` on an absent name is the lookup that
raises `notFound`. -/
theorem C7_key_errors :
    ∀ (s : ControllerState) (o : PhysicsObject) (n : String),
      (containsName s o.name = true → add_object s o = .error .duplicateKey) ∧
      (containsName s o.name = false →
        add_object s o = .ok { s with objects := s.objects ++ [o] }) ∧
      (containsName s n = false →
        remove_object s n = .error .notFound ∧ get_object s n = none ∧
          get_object_state s n = .error .notFound) ∧
      (containsName s n = true →
        remove_object s n = .ok { s with objects := s.objects.filter (fun o' => o'.name ≠ n) }) := by
  intro s o n
  refine ⟨fun h => by simp [add_object, h], fun h => by simp [add_object, h], ?_, fun h => by simp [remove_object, h]⟩
  intro h
  have hfind : get_object s n = none := by
    rw [get_object, List.find?_eq_none]
    intro a ha
    simp only [containsName, List.any_eq_false] at h
    simpa using h a ha
  exact ⟨by simp [remove_object, h], hfind, by simp [get_object_state, hfind]⟩

/-- Witness for C7: on a controller holding exactly one body `"a"`, adding
another `"a"` raises `duplicateKey`; removing `"b"` raises `notFound`; and
`get_object` of `"b"` returns `none` while `get_object_state` of `"b"`
raises `notFound`. -/
theorem C7_key_errors_witness :
    add_object ⟨.classicalMechanics, [⟨"a", 1, ⟨0, 0, 0⟩, ⟨0, 0, 0⟩, ⟨0, 0, 0⟩⟩], 1 / 100, 0, 0, []⟩
        ⟨"a", 2, ⟨1, 0, 0⟩, ⟨0, 0, 0⟩, ⟨0, 0, 0⟩⟩ = .error .duplicateKey ∧
      remove_object ⟨.classicalMechanics, [⟨"a", 1, ⟨0, 0, 0⟩, ⟨0, 0, 0⟩, ⟨0, 0, 0⟩⟩], 1 / 100, 0, 0, []⟩
        "b" = .error .notFound ∧
      get_object ⟨.classicalMechanics, [⟨"a", 1, ⟨0, 0, 0⟩, ⟨0, 0, 0⟩, ⟨0, 0, 0⟩⟩], 1 / 100, 0, 0, []⟩
        "b" = none ∧
      get_object_state ⟨.classicalMechanics, [⟨"a", 1, ⟨0, 0, 0⟩, ⟨0, 0, 0⟩, ⟨0, 0, 0⟩⟩], 1 / 100, 0, 0, []⟩
        "b" = .error .notFound := by
  have h1 := (C7_key_errors ⟨.classicalMechanics, [⟨"a", 1, ⟨0, 0, 0⟩, ⟨0, 0, 0⟩, ⟨0, 0, 0⟩⟩], 1 / 100, 0, 0, []⟩
    ⟨"a", 2, ⟨1, 0, 0⟩, ⟨0, 0, 0⟩, ⟨0, 0, 0⟩⟩ "b").1 (by simp [containsName])
  have h2 := (C7_key_errors ⟨.classicalMechanics, [⟨"a", 1, ⟨0, 0, 0⟩, ⟨0, 0, 0⟩, ⟨0, 0, 0⟩⟩], 1 / 100, 0, 0, []⟩
    ⟨"a", 2, ⟨1, 0, 0⟩, ⟨0, 0, 0⟩, ⟨0, 0, 0⟩⟩ "b").2.2.1 (by simp [containsName])
  exact ⟨h1, h2.1, h2.2.1, h2.2.2⟩

/-- Counterexample for C7 as frozen: the source's `get_object` returns
`None` for an absent name (its type in this embedding is `Option`, with no
error path at all), rather than raising `NotFound`; only
`get_object_state` raises.  `get_object` of an absent name on a fresh
controller is `none`, a normal return. -/
theorem C7_get_object_counterexample :
    get_object (initController .classicalMechanics) "missing" = none ∧
      get_object_state (initController .classicalMechanics) "missing" = .error .notFound := by
  constructor
  · rfl
  · rfl

/-- The claim C8 concerns, amended: `PhysicsObject.__post_init__` performs
no mass validation at all (its only checks are the `Vector3D` type checks,
static in this embedding), so construction accepts every mass and
`mass > 0` is not an enforced invariant. -/
theorem C8_no_mass_validation :
    ∀ o : PhysicsObject, PhysicsObject.post_init o = .ok o :=
  fun _ => rfl

/-- Counterexample for C8 as frozen: a body of mass `-1` is accepted at
construction — no `InvalidMass` error is raised — even though `-1` is not
positive. -/
theorem C8_nonpositive_mass_counterexample :
    PhysicsObject.post_init ⟨"b", -1, ⟨0, 0, 0⟩, ⟨0, 0, 0⟩, ⟨0, 0, 0⟩⟩ =
        .ok ⟨"b", -1, ⟨0, 0, 0⟩, ⟨0, 0, 0⟩, ⟨0, 0, 0⟩⟩ ∧
      ¬ (0 : ℚ) < (PhysicsObject.mk "b" (-1) ⟨0, 0, 0⟩ ⟨0, 0, 0⟩ ⟨0, 0, 0⟩).mass := by
  exact ⟨rfl, by norm_num⟩

/-- The claim C10 concerns: `reset_simulation` zeroes `current_time` and
`total_energy`, empties the history, and zeroes every body's acceleration,
while keeping the body list itself and each body's name, mass, position and
velocity unchanged. -/
theorem C10_reset_simulation_frame :
    ∀ s : ControllerState,
      (reset_simulation s).current_time = 0 ∧
      (reset_simulation s).total_energy = 0 ∧
      (reset_simulation s).simulation_history = [] ∧
      (reset_simulation s).mode = s.mode ∧
      (reset_simulation s).time_step = s.time_step ∧
      (reset_simulation s).objects =
        s.objects.map (fun o => { o with acceleration := ⟨0, 0, 0⟩ }) ∧
      (reset_simulation s).objects.map PhysicsObject.name =
        s.objects.map PhysicsObject.name ∧
      (reset_simulation s).objects.map PhysicsObject.mass =
        s.objects.map PhysicsObject.mass ∧
      (reset_simulation s).objects.map PhysicsObject.position =
        s.objects.map PhysicsObject.position ∧
      (reset_simulation s).objects.map PhysicsObject.velocity =
        s.objects.map PhysicsObject.velocity ∧
      (reset_simulation s).objects.map PhysicsObject.acceleration =
        s.objects.map (fun _ => (⟨0, 0, 0⟩ : Vector3D)) := by
  intro s
  refine ⟨rfl, rfl, rfl, rfl, rfl, rfl, ?_, ?_, ?_, ?_, ?_⟩ <;>
    simp [reset_simulation, reset_accelerations, List.map_map, Function.comp_def]

theorem Vector3D.eq_iff {v w : Vector3D} : v = w ↔ v.x = w.x ∧ v.y = w.y ∧ v.z = w.z := by
  cases v
  cases w
  simp

/-- The claim C1 concerns: for bodies at distinct positions, the
gravitational force on `a` is the displacement `b.position - a.position`
normalized (componentwise division by the computed magnitude `r`) and
scaled by `G·mass(a)·mass(b)/r²` — pointing from `a` toward `b` — while
coincident positions raise the `coincidentPositions` error instead. -/
theorem C1_gravitational_force_spec :
    ∀ (a b : PhysicsObject) (fuel : ℕ),
      (a.position = b.position →
        calculate_gravitational_force a b fuel = .error .coincidentPositions) ∧
      (a.position ≠ b.position → ∀ r, (displacement a b).magnitude fuel = .ok r →
        0 < r ∧
        calculate_gravitational_force a b fuel =
          .ok ⟨(displacement a b).x / r *
                (PhysicsConstants.GRAVITATIONAL_CONSTANT * a.mass * b.mass / r ^ 2),
              (displacement a b).y / r *
                (PhysicsConstants.GRAVITATIONAL_CONSTANT * a.mass * b.mass / r ^ 2),
              (displacement a b).z / r *
                (PhysicsConstants.GRAVITATIONAL_CONSTANT * a.mass * b.mass / r ^ 2)⟩) := by
  intro a b fuel
  constructor
  · intro hpos
    have hdisp : displacement a b = ⟨0, 0, 0⟩ := by
      simp [displacement, Vector3D.eq_iff, ← hpos]
    simp [calculate_gravitational_force, hdisp, magnitude_zero]
  · intro hpos r hmag
    have hd0 : displacement a b ≠ ⟨0, 0, 0⟩ := by
      intro hc
      apply hpos
      rw [Vector3D.eq_iff] at hc ⊢
      simp only [displacement] at hc
      exact ⟨by linarith [hc.1], by linarith [hc.2.1], by linarith [hc.2.2]⟩
    have hr : 0 < r := magnitude_pos hd0 hmag
    have hnorm := normalize_of_magnitude_ok hmag hr.ne'
    refine ⟨hr, ?_⟩
    simp [calculate_gravitational_force, hmag, hnorm, hr.ne']

/-- Witness for C1: with unit masses at the origin and at `(1,0,0)` the
force evaluates to the stated formula at `r = 1`, while a coincident pair
raises `coincidentPositions`. -/
theorem C1_gravitational_force_spec_witness :
    calculate_gravitational_force ⟨"a", 1, ⟨0, 0, 0⟩, ⟨0, 0, 0⟩, ⟨0, 0, 0⟩⟩
        ⟨"c", 2, ⟨0, 0, 0⟩, ⟨0, 0, 0⟩, ⟨0, 0, 0⟩⟩ 1 = .error .coincidentPositions ∧
      calculate_gravitational_force ⟨"a", 1, ⟨0, 0, 0⟩, ⟨0, 0, 0⟩, ⟨0, 0, 0⟩⟩
        ⟨"b", 1, ⟨1, 0, 0⟩, ⟨0, 0, 0⟩, ⟨0, 0, 0⟩⟩ 1 =
        .ok ⟨(displacement ⟨"a", 1, ⟨0, 0, 0⟩, ⟨0, 0, 0⟩, ⟨0, 0, 0⟩⟩
                ⟨"b", 1, ⟨1, 0, 0⟩, ⟨0, 0, 0⟩, ⟨0, 0, 0⟩⟩).x / 1 *
              (PhysicsConstants.GRAVITATIONAL_CONSTANT * 1 * 1 / 1 ^ 2),
            (displacement ⟨"a", 1, ⟨0, 0, 0⟩, ⟨0, 0, 0⟩, ⟨0, 0, 0⟩⟩
                ⟨"b", 1, ⟨1, 0, 0⟩, ⟨0, 0, 0⟩, ⟨0, 0, 0⟩⟩).y / 1 *
              (PhysicsConstants.GRAVITATIONAL_CONSTANT * 1 * 1 / 1 ^ 2),
            (displacement ⟨"a", 1, ⟨0, 0, 0⟩, ⟨0, 0, 0⟩, ⟨0, 0, 0⟩⟩
                ⟨"b", 1, ⟨1, 0, 0⟩, ⟨0, 0, 0⟩, ⟨0, 0, 0⟩⟩).z / 1 *
              (PhysicsConstants.GRAVITATIONAL_CONSTANT * 1 * 1 / 1 ^ 2)⟩ := by
  have hmag : (displacement ⟨"a", 1, ⟨0, 0, 0⟩, ⟨0, 0, 0⟩, ⟨0, 0, 0⟩⟩
      ⟨"b", 1, ⟨1, 0, 0⟩, ⟨0, 0, 0⟩, ⟨0, 0, 0⟩⟩).magnitude 1 = .ok 1 := by
    norm_num [displacement, Vector3D.magnitude, decimal_sqrt, newtonLoop, newtonStep,
      convergence_threshold, PRECISION]
  refine ⟨(C1_gravitational_force_spec _ _ 1).1 rfl, ?_⟩
  exact ((C1_gravitational_force_spec _ _ 1).2 (by simp [Vector3D.eq_iff]) 1 hmag).2

/-- The claim C2 concerns: for bodies of nonzero mass at distinct
positions, the force of `b` on `a` and the force of `a` on `b` are exactly
antiparallel, component by component (Newton's third law; exact here since
every arithmetic step is antisymmetric in the displacement). -/
theorem C2_newton_third_law :
    ∀ (a b : PhysicsObject) (fuel : ℕ) (F : Vector3D),
      a.mass ≠ 0 → b.mass ≠ 0 → a.position ≠ b.position →
      calculate_gravitational_force a b fuel = .ok F →
      calculate_gravitational_force b a fuel = .ok ⟨-F.x, -F.y, -F.z⟩ := by
  intro a b fuel F hma hmb hpos h
  have hdisp : displacement b a =
      ⟨-(displacement a b).x, -(displacement a b).y, -(displacement a b).z⟩ := by
    rw [Vector3D.eq_iff]
    refine ⟨?_, ?_, ?_⟩ <;> (simp only [displacement]; ring)
  have hmageq : (displacement b a).magnitude fuel = (displacement a b).magnitude fuel := by
    unfold Vector3D.magnitude
    rw [hdisp]
    congr 1
    ring
  cases hmag : (displacement a b).magnitude fuel with
  | error e => simp [calculate_gravitational_force, hmag] at h
  | ok r =>
    by_cases hr : r = 0
    · subst hr
      simp [calculate_gravitational_force, hmag] at h
    · have hnorm := normalize_of_magnitude_ok hmag hr
      have hF : F = ⟨(displacement a b).x / r *
            (PhysicsConstants.GRAVITATIONAL_CONSTANT * a.mass * b.mass / r ^ 2),
          (displacement a b).y / r *
            (PhysicsConstants.GRAVITATIONAL_CONSTANT * a.mass * b.mass / r ^ 2),
          (displacement a b).z / r *
            (PhysicsConstants.GRAVITATIONAL_CONSTANT * a.mass * b.mass / r ^ 2)⟩ := by
        simp [calculate_gravitational_force, hmag, hnorm, hr] at h
        exact h.symm
      subst hF
      have hmag' : (displacement b a).magnitude fuel = .ok r := by rw [hmageq, hmag]
      have hnorm' := normalize_of_magnitude_ok hmag' hr
      have hmag2 := hdisp ▸ hmag'
      have hnorm2 := hdisp ▸ hnorm'
      simp only [calculate_gravitational_force, hdisp, hmag2, hnorm2, if_neg hr]
      simp only [Except.ok.injEq, Vector3D.eq_iff]
      refine ⟨?_, ?_, ?_⟩ <;> (dsimp only; ring)

/-- Witness for C2: the two forces between unit masses at the origin and at
`(1,0,0)` are exact componentwise negations of each other. -/
theorem C2_newton_third_law_witness :
    calculate_gravitational_force ⟨"b", 1, ⟨1, 0, 0⟩, ⟨0, 0, 0⟩, ⟨0, 0, 0⟩⟩
        ⟨"a", 1, ⟨0, 0, 0⟩, ⟨0, 0, 0⟩, ⟨0, 0, 0⟩⟩ 1 =
      .ok ⟨-(667430 / 10 ^ 16), -0, -0⟩ := by
  have hAB : calculate_gravitational_force ⟨"a", 1, ⟨0, 0, 0⟩, ⟨0, 0, 0⟩, ⟨0, 0, 0⟩⟩
      ⟨"b", 1, ⟨1, 0, 0⟩, ⟨0, 0, 0⟩, ⟨0, 0, 0⟩⟩ 1 = .ok ⟨667430 / 10 ^ 16, 0, 0⟩ := by
    norm_num [calculate_gravitational_force, displacement, Vector3D.magnitude,
      Vector3D.normalize, decimal_sqrt, newtonLoop, newtonStep, convergence_threshold,
      PRECISION, PhysicsConstants.GRAVITATIONAL_CONSTANT]
  exact C2_newton_third_law _ _ 1 ⟨667430 / 10 ^ 16, 0, 0⟩ (by norm_num) (by norm_num)
    (by simp [Vector3D.eq_iff]) hAB

/-! ## Termination of the Newton iteration (real-analysis bounds) -/

theorem convergence_threshold_pos : (0 : ℚ) < convergence_threshold := by
  norm_num [convergence_threshold, PRECISION]

theorem newtonIter_pos {value : ℚ} (hv : 0 < value) : ∀ n, 0 < newtonIter value n := by
  intro n
  induction n with
  | zero => exact hv
  | succ n ih => exact newtonStep_pos hv ih

theorem newtonStep_cast (value x : ℚ) :
    ((newtonStep value x : ℚ) : ℝ) = ((x : ℝ) + (value : ℝ) / (x : ℝ)) / 2 := by
  unfold newtonStep
  push_cast
  ring

theorem newtonStep_ge_sqrt_real {value x : ℚ} (hv : 0 < value) (hx : 0 < x) :
    Real.sqrt (value : ℝ) ≤ ((newtonStep value x : ℚ) : ℝ) := by
  have hxR : (0 : ℝ) < (x : ℝ) := by exact_mod_cast hx
  have hvR : (0 : ℝ) < (value : ℝ) := by exact_mod_cast hv
  have hs := Real.sq_sqrt hvR.le
  have hq : (value : ℝ) / (x : ℝ) * (x : ℝ) = (value : ℝ) :=
    div_mul_cancel₀ _ hxR.ne'
  rw [newtonStep_cast]
  nlinarith [sq_nonneg ((x : ℝ) - Real.sqrt (value : ℝ)), hs, hq, hxR,
    Real.sqrt_nonneg ((value : ℝ))]

theorem newtonStep_le_self_real {value x : ℚ} (hv : 0 < value)
    (hx : Real.sqrt (value : ℝ) ≤ (x : ℝ)) (hx0 : 0 < x) :
    ((newtonStep value x : ℚ) : ℝ) ≤ (x : ℝ) := by
  have hxR : (0 : ℝ) < (x : ℝ) := by exact_mod_cast hx0
  have hvR : (0 : ℝ) < (value : ℝ) := by exact_mod_cast hv
  have hs := Real.sq_sqrt hvR.le
  have hq : (value : ℝ) / (x : ℝ) * (x : ℝ) = (value : ℝ) :=
    div_mul_cancel₀ _ hxR.ne'
  rw [newtonStep_cast]
  nlinarith [hs, hq, hxR, Real.sqrt_nonneg ((value : ℝ)), hx]

theorem newtonStep_err_halve_real {value x : ℚ} (hv : 0 < value)
    (hx : Real.sqrt (value : ℝ) ≤ (x : ℝ)) (hx0 : 0 < x) :
    ((newtonStep value x : ℚ) : ℝ) - Real.sqrt (value : ℝ) ≤
      ((x : ℝ) - Real.sqrt (value : ℝ)) / 2 := by
  have hxR : (0 : ℝ) < (x : ℝ) := by exact_mod_cast hx0
  have hvR : (0 : ℝ) < (value : ℝ) := by exact_mod_cast hv
  have hs := Real.sq_sqrt hvR.le
  have hq : (value : ℝ) / (x : ℝ) * (x : ℝ) = (value : ℝ) :=
    div_mul_cancel₀ _ hxR.ne'
  rw [newtonStep_cast]
  nlinarith [hs, hq, hxR, Real.sqrt_nonneg ((value : ℝ)), hx]

theorem newtonIter_ge_sqrt {value : ℚ} (hv : 0 < value) (n : ℕ) :
    Real.sqrt (value : ℝ) ≤ ((newtonIter value (n + 1) : ℚ) : ℝ) := by
  have h := newtonStep_ge_sqrt_real hv (newtonIter_pos hv n)
  simpa [newtonIter] using h

theorem newtonIter_err_decay {value : ℚ} (hv : 0 < value) (n : ℕ) :
    ((newtonIter value (n + 2) : ℚ) : ℝ) - Real.sqrt (value : ℝ) ≤
      (((newtonIter value 1 : ℚ) : ℝ) - Real.sqrt (value : ℝ)) / 2 ^ n := by
  induction n with
  | zero =>
    have h1 := newtonStep_err_halve_real hv (newtonIter_ge_sqrt hv 0) (newtonIter_pos hv 1)
    have h2 : 0 ≤ ((newtonIter value 1 : ℚ) : ℝ) - Real.sqrt (value : ℝ) :=
      sub_nonneg.mpr (newtonIter_ge_sqrt hv 0)
    have h3 : ((newtonIter value 2 : ℚ) : ℝ) - Real.sqrt (value : ℝ) ≤
        (((newtonIter value 1 : ℚ) : ℝ) - Real.sqrt (value : ℝ)) / 2 := by
      simpa [newtonIter] using h1
    simp only [pow_zero, div_one, Nat.zero_add]
    linarith
  | succ n ih =>
    have h1 := newtonStep_err_halve_real hv (newtonIter_ge_sqrt hv (n + 1))
      (newtonIter_pos hv (n + 2))
    have h3 : ((newtonIter value (n + 3) : ℚ) : ℝ) - Real.sqrt (value : ℝ) ≤
        (((newtonIter value (n + 2) : ℚ) : ℝ) - Real.sqrt (value : ℝ)) / 2 := by
      simpa [newtonIter] using h1
    have h4 : (((newtonIter value (n + 2) : ℚ) : ℝ) - Real.sqrt (value : ℝ)) / 2 ≤
        ((((newtonIter value 1 : ℚ) : ℝ) - Real.sqrt (value : ℝ)) / 2 ^ n) / 2 := by
      linarith
    have h5 : ((((newtonIter value 1 : ℚ) : ℝ) - Real.sqrt (value : ℝ)) / 2 ^ n) / 2 =
        (((newtonIter value 1 : ℚ) : ℝ) - Real.sqrt (value : ℝ)) / 2 ^ (n + 1) := by
      rw [pow_succ]
      ring
    exact h3.trans (h4.trans h5.le)

theorem newtonIter_stop {value : ℚ} (hv : 0 < value) :
    ∃ N, |newtonIter value (N + 3) - newtonIter value (N + 2)| < convergence_threshold := by
  have hε : (0 : ℝ) < ((convergence_threshold : ℚ) : ℝ) := by
    exact_mod_cast convergence_threshold_pos
  obtain ⟨N, hN⟩ := pow_unbounded_of_one_lt
    ((((newtonIter value 1 : ℚ) : ℝ) - Real.sqrt (value : ℝ)) / ((convergence_threshold : ℚ) : ℝ))
    (one_lt_two)
  refine ⟨N, ?_⟩
  have h2N : (0 : ℝ) < (2 : ℝ) ^ N := by positivity
  have hlt : (((newtonIter value 1 : ℚ) : ℝ) - Real.sqrt (value : ℝ)) / 2 ^ N <
      ((convergence_threshold : ℚ) : ℝ) := by
    rw [div_lt_iff₀ h2N]
    have h := (div_lt_iff₀ hε).mp hN
    linarith
  have hge1 := newtonIter_ge_sqrt hv (N + 1)
  have hge2 := newtonIter_ge_sqrt hv (N + 2)
  have hle : ((newtonIter value (N + 3) : ℚ) : ℝ) ≤ ((newtonIter value (N + 2) : ℚ) : ℝ) := by
    have h := newtonStep_le_self_real hv hge1 (newtonIter_pos hv (N + 2))
    simpa [newtonIter] using h
  have hdecay := newtonIter_err_decay hv N
  have habs : |((newtonIter value (N + 3) : ℚ) : ℝ) - ((newtonIter value (N + 2) : ℚ) : ℝ)| <
      ((convergence_threshold : ℚ) : ℝ) := by
    rw [abs_of_nonpos (by linarith)]
    have hge3 : Real.sqrt (value : ℝ) ≤ ((newtonIter value (N + 3) : ℚ) : ℝ) := hge2
    linarith
  have : |((newtonIter value (N + 3) - newtonIter value (N + 2) : ℚ) : ℝ)| <
      ((convergence_threshold : ℚ) : ℝ) := by
    push_cast
    exact habs
  exact_mod_cast this

theorem newtonLoop_stops {value : ℚ} :
    ∀ fuel k,
      (∃ j, j < fuel ∧
        |newtonIter value (k + j + 1) - newtonIter value (k + j)| < convergence_threshold) →
      ∃ r, newtonLoop value (newtonIter value k) fuel = .ok r := by
  intro fuel
  induction fuel with
  | zero =>
    intro k h
    obtain ⟨j, hj, _⟩ := h
    exact absurd hj (Nat.not_lt_zero j)
  | succ n ih =>
    intro k h
    obtain ⟨j, hj, hjlt⟩ := h
    rw [newtonLoop_succ]
    have hstep : newtonStep value (newtonIter value k) = newtonIter value (k + 1) := rfl
    by_cases hc : |newtonStep value (newtonIter value k) - newtonIter value k| <
        convergence_threshold
    · rw [if_pos hc]
      exact ⟨_, rfl⟩
    · rw [if_neg hc, hstep]
      rcases j with _ | j'
      · exact absurd (by simpa [hstep] using hjlt) hc
      · apply ih (k + 1)
        refine ⟨j', by omega, ?_⟩
        have h1 : k + 1 + j' + 1 = k + (j' + 1) + 1 := by omega
        have h2 : k + 1 + j' = k + (j' + 1) := by omega
        rw [h1, h2]
        exact hjlt

theorem newtonLoop_terminates {value : ℚ} (hv : 0 < value) :
    ∃ fuel r, newtonLoop value value fuel = .ok r := by
  obtain ⟨N, hN⟩ := newtonIter_stop hv
  obtain ⟨r, hr⟩ := newtonLoop_stops (N + 4) 0 ⟨N + 2, by omega, by simpa using hN⟩
  exact ⟨N + 4, r, by simpa [newtonIter] using hr⟩

theorem decimal_sqrt_terminates {value : ℚ} (hv : 0 ≤ value) :
    ∃ fuel r, decimal_sqrt value fuel = .ok r ∧ 0 ≤ r := by
  rcases eq_or_lt_of_le hv with h0 | hpos
  · exact ⟨0, 0, by rw [← h0, decimal_sqrt_zero], le_refl 0⟩
  · obtain ⟨fuel, r, hr⟩ := newtonLoop_terminates hpos
    exact ⟨fuel, r, by rwa [decimal_sqrt_of_pos hpos],
      (newtonLoop_pos hpos fuel value r hpos hr).le⟩

/-- The claim C6 concerns: for every non-negative input the Newton
iteration of `_decimal_sqrt` terminates (some finite fuel makes it return)
with a non-negative result; the domain error is raised exactly for
negative inputs; and through `magnitude`, which always passes a sum of
squares, that error is unreachable. -/
theorem C6_decimal_sqrt_termination :
    (∀ value : ℚ, 0 ≤ value → ∃ fuel r, decimal_sqrt value fuel = .ok r ∧ 0 ≤ r) ∧
    (∀ (value : ℚ) (fuel : ℕ),
      decimal_sqrt value fuel = .error .domainError ↔ value < 0) ∧
    (∀ (v : Vector3D) (fuel : ℕ), Vector3D.magnitude v fuel ≠ .error .domainError) :=
  ⟨fun _ hv => decimal_sqrt_terminates hv,
    fun _ _ => decimal_sqrt_domainError_iff,
    magnitude_ne_domainError⟩

/-- Witness for C6: the iteration terminates on input `2` with a
non-negative result, and input `-1` raises the domain error. -/
theorem C6_decimal_sqrt_termination_witness :
    (∃ fuel r, decimal_sqrt 2 fuel = .ok r ∧ 0 ≤ r) ∧
      decimal_sqrt (-1) 0 = .error .domainError := by
  refine ⟨C6_decimal_sqrt_termination.1 2 (by norm_num), ?_⟩
  exact (C6_decimal_sqrt_termination.2.1 (-1) 0).mpr (by norm_num)

/-! ## Quantitative bounds on the returned square root

The stopping rule of `_decimal_sqrt` is the absolute criterion
`|x_new - x| < 10^-(prec-5)`.  For values whose true square root lies at or
below that threshold the returned value is far too large (it cannot fall
below about half the threshold), which breaks the "normalize yields a unit
vector" property for tiny vectors; the lemmas of this section pin both
sides down. -/

theorem newtonStep_ge_sqrt_rat {v s x : ℚ} (hs : 0 < s) (hv : s ^ 2 = v) (hx : 0 < x) :
    s ≤ newtonStep v x := by
  have hq : v / x * x = v := div_mul_cancel₀ _ hx.ne'
  unfold newtonStep
  nlinarith [sq_nonneg (x - s), hq, hx, hs]

theorem newtonStep_le_self_rat {v x : ℚ} (hx0 : 0 < x) (hv0 : 0 < v) (hv2 : v ≤ x ^ 2) :
    newtonStep v x ≤ x := by
  have hq : v / x * x = v := div_mul_cancel₀ _ hx0.ne'
  unfold newtonStep
  nlinarith [hq, hx0, hv2]

theorem newtonStep_half_le {v x : ℚ} (hv : 0 < v) (hx0 : 0 < x) :
    x / 2 ≤ newtonStep v x := by
  have := div_pos hv hx0
  unfold newtonStep
  linarith

theorem newtonLoop_le_of_sq {v s : ℚ} (hs : 0 < s) (hv : s ^ 2 = v) :
    ∀ fuel x r, s ≤ x → newtonLoop v x fuel = .ok r → r ≤ s + convergence_threshold := by
  intro fuel
  induction fuel with
  | zero => intro x r _ h; simp [newtonLoop] at h
  | succ n ih =>
    intro x r hx h
    have hx0 : 0 < x := lt_of_lt_of_le hs hx
    have hv0 : 0 < v := hv ▸ pow_pos hs 2
    have hge : s ≤ newtonStep v x := newtonStep_ge_sqrt_rat hs hv hx0
    have hv2 : v ≤ x ^ 2 := hv ▸ pow_le_pow_left₀ hs.le hx 2
    have hle : newtonStep v x ≤ x := newtonStep_le_self_rat hx0 hv0 hv2
    rw [newtonLoop_succ] at h
    split at h
    · rename_i hc
      cases h
      have hd : x - newtonStep v x < convergence_threshold := by
        rw [abs_of_nonpos (by linarith)] at hc
        linarith
      have hxu : 2 * x * newtonStep v x = x ^ 2 + v := by
        unfold newtonStep
        field_simp
        ring
      have h1 : (newtonStep v x - s) * (x + s) = (x - newtonStep v x) * (x - s) := by
        linear_combination hxu - hv
      have h4 : (newtonStep v x - s) * (x + s) ≤ (x - newtonStep v x) * (x + s) := by
        rw [h1]
        exact mul_le_mul_of_nonneg_left (by linarith) (by linarith)
      have h5 : newtonStep v x - s ≤ x - newtonStep v x :=
        le_of_mul_le_mul_right h4 (by linarith)
      linarith
    · rename_i hc
      exact ih (newtonStep v x) r hge h

theorem newtonLoop_ge_of_small {v : ℚ} (hv : 0 < v)
    (hvs : v ≤ convergence_threshold ^ 2 / 2) :
    ∀ fuel x r, 3 * convergence_threshold / 4 ≤ x → newtonLoop v x fuel = .ok r →
      3 * convergence_threshold / 8 ≤ r := by
  have hε := convergence_threshold_pos
  intro fuel
  induction fuel with
  | zero => intro x r _ h; simp [newtonLoop] at h
  | succ n ih =>
    intro x r hx h
    have hx0 : 0 < x := lt_of_lt_of_le (by linarith) hx
    have hhalf := newtonStep_half_le hv hx0
    rw [newtonLoop_succ] at h
    split at h
    · cases h
      linarith
    · rename_i hc
      have hv2 : v ≤ x ^ 2 := by
        nlinarith [hvs, hx, hε, sq_nonneg (x - 3 * convergence_threshold / 4)]
      have hle : newtonStep v x ≤ x := newtonStep_le_self_rat hx0 hv hv2
      have h6 : convergence_threshold ≤ x - newtonStep v x := by
        have h7 := not_lt.mp hc
        rw [abs_of_nonpos (by linarith)] at h7
        linarith
      exact ih (newtonStep v x) r (by linarith) h

theorem decimal_sqrt_lb_small {v : ℚ} (hv : 0 < v)
    (hvs : v ≤ convergence_threshold ^ 2 / 2) :
    ∀ fuel r, decimal_sqrt v fuel = .ok r → 3 * convergence_threshold / 8 ≤ r := by
  have hε := convergence_threshold_pos
  have he4 : convergence_threshold ≤ 1 / 4 := by norm_num [convergence_threshold, PRECISION]
  have hv2 : v ≤ 1 / 2 := le_trans hvs (by nlinarith [hε, he4])
  intro fuel r h
  rw [decimal_sqrt_of_pos hv] at h
  cases fuel with
  | zero => simp [newtonLoop] at h
  | succ n =>
    rw [newtonLoop_succ] at h
    have hstep1 : newtonStep v v = (v + 1) / 2 := by
      unfold newtonStep
      rw [div_self hv.ne']
    have hcond : ¬ |newtonStep v v - v| < convergence_threshold := by
      rw [hstep1, not_lt, show (v + 1) / 2 - v = (1 - v) / 2 from by ring,
        abs_of_nonneg (by linarith)]
      linarith
    rw [if_neg hcond, hstep1] at h
    exact newtonLoop_ge_of_small hv hvs n ((v + 1) / 2) r (by linarith) h

theorem decimal_sqrt_ub {v s : ℚ} (hs : 0 < s) (hv : s ^ 2 = v) (hsmall : v ≤ 1 / 2) :
    ∀ fuel r, decimal_sqrt v fuel = .ok r → r ≤ s + convergence_threshold := by
  have hε := convergence_threshold_pos
  have he4 : convergence_threshold ≤ 1 / 4 := by norm_num [convergence_threshold, PRECISION]
  have hv0 : 0 < v := hv ▸ pow_pos hs 2
  intro fuel r h
  rw [decimal_sqrt_of_pos hv0] at h
  cases fuel with
  | zero => simp [newtonLoop] at h
  | succ n =>
    rw [newtonLoop_succ] at h
    have hstep1 : newtonStep v v = (v + 1) / 2 := by
      unfold newtonStep
      rw [div_self hv0.ne']
    have hcond : ¬ |newtonStep v v - v| < convergence_threshold := by
      rw [hstep1, not_lt, show (v + 1) / 2 - v = (1 - v) / 2 from by ring,
        abs_of_nonneg (by linarith)]
      linarith
    rw [if_neg hcond, hstep1] at h
    exact newtonLoop_le_of_sq hs hv n ((v + 1) / 2) r (by nlinarith [sq_nonneg (s - 1), hv]) h

/-- The claim C5 concerns, amended: `normalize` raises exactly when the
computed magnitude is zero, which happens exactly for the zero vector; for
every nonzero vector whose magnitude computation returns, it returns the
componentwise division by the magnitude, raising no error.  (The further
part of the frozen claim — that the result's magnitude is `1` within the
configured precision's tolerance — fails for vectors far below the
absolute stopping threshold; see the counterexample.) -/
theorem C5_normalize_spec :
    ∀ (v : Vector3D) (fuel : ℕ),
      (v = ⟨0, 0, 0⟩ → Vector3D.normalize v fuel = .error .zeroVector) ∧
      (∀ r, Vector3D.magnitude v fuel = .ok r →
        (Vector3D.normalize v fuel = .error .zeroVector ↔ r = 0) ∧
        (r = 0 ↔ v = ⟨0, 0, 0⟩) ∧
        (v ≠ ⟨0, 0, 0⟩ →
          0 < r ∧ Vector3D.normalize v fuel = .ok ⟨v.x / r, v.y / r, v.z / r⟩)) := by
  intro v fuel
  constructor
  · intro hv
    subst hv
    exact normalize_zero fuel
  · intro r hmag
    refine ⟨normalize_zeroVector_iff hmag, magnitude_eq_zero_iff hmag, ?_⟩
    intro hv
    have hr := magnitude_pos hv hmag
    exact ⟨hr, normalize_of_magnitude_ok hmag hr.ne'⟩

/-- Witness for C5: the zero vector raises `zeroVector`, and `(1,0,0)`
normalizes to its componentwise division by its magnitude `1`. -/
theorem C5_normalize_spec_witness :
    Vector3D.normalize ⟨0, 0, 0⟩ 7 = .error .zeroVector ∧
      (0 : ℚ) < 1 ∧ Vector3D.normalize ⟨1, 0, 0⟩ 1 = .ok ⟨1 / 1, 0 / 1, 0 / 1⟩ := by
  have hmag : Vector3D.magnitude ⟨1, 0, 0⟩ 1 = .ok 1 := by
    norm_num [Vector3D.magnitude, decimal_sqrt, newtonLoop, newtonStep,
      convergence_threshold, PRECISION]
  have h := ((C5_normalize_spec ⟨1, 0, 0⟩ 1).2 1 hmag).2.2 (by simp [Vector3D.eq_iff])
  exact ⟨(C5_normalize_spec ⟨0, 0, 0⟩ 7).1 rfl, h.1, h.2⟩

/-- Counterexample for C5 as frozen: for the tiny nonzero vector
`(10⁻⁶⁰, 0, 0)` normalization succeeds, but the magnitude of the result is
NOT `1` within the configured tolerance `10⁻⁴⁵`: the absolute stopping
criterion of the Newton iteration cannot return a value below about
`3·10⁻⁴⁵/8` on input `10⁻¹²⁰`, so the "unit" vector has true length at
most about `10⁻¹⁴`, and its computed magnitude stays below `1/2`. -/
theorem C5_unit_magnitude_counterexample :
    ∃ (fuel fuel2 : ℕ) (u : Vector3D) (r : ℚ),
      Vector3D.normalize ⟨1 / 10 ^ 60, 0, 0⟩ fuel = .ok u ∧
      Vector3D.magnitude u fuel2 = .ok r ∧
      convergence_threshold < |r - 1| := by
  have hε := convergence_threshold_pos
  have he4 : convergence_threshold ≤ 1 / 4 := by norm_num [convergence_threshold, PRECISION]
  have hwx : (0 : ℚ) < 1 / 10 ^ 60 := by norm_num
  have hS : (0 : ℚ) < (1 / 10 ^ 60 : ℚ) ^ 2 + 0 ^ 2 + 0 ^ 2 := by norm_num
  obtain ⟨f1, m, hm, _⟩ := decimal_sqrt_terminates hS.le
  have hSsmall : ((1 / 10 ^ 60 : ℚ)) ^ 2 + 0 ^ 2 + 0 ^ 2 ≤ convergence_threshold ^ 2 / 2 := by
    norm_num [convergence_threshold, PRECISION]
  have hmlb : 3 * convergence_threshold / 8 ≤ m := decimal_sqrt_lb_small hS hSsmall f1 m hm
  have hmpos : 0 < m := by linarith
  have hmagw : Vector3D.magnitude ⟨1 / 10 ^ 60, 0, 0⟩ f1 = .ok m := hm
  have hnorm := normalize_of_magnitude_ok hmagw hmpos.ne'
  have hux0 : 0 < (1 / 10 ^ 60 : ℚ) / m := div_pos hwx hmpos
  have huxub : (1 / 10 ^ 60 : ℚ) / m ≤ 1 / 10 ^ 14 := by
    rw [div_le_iff₀ hmpos]
    have h1 : (1 / 10 ^ 60 : ℚ) ≤ 1 / 10 ^ 14 * (3 * convergence_threshold / 8) := by
      norm_num [convergence_threshold, PRECISION]
    have h2 : 1 / 10 ^ 14 * (3 * convergence_threshold / 8) ≤ 1 / 10 ^ 14 * m :=
      mul_le_mul_of_nonneg_left hmlb (by norm_num)
    linarith
  obtain ⟨f2, r, hr, _⟩ := decimal_sqrt_terminates
    (show (0 : ℚ) ≤ ((1 / 10 ^ 60 : ℚ) / m) ^ 2 + 0 ^ 2 + 0 ^ 2 by positivity)
  have hmagu : Vector3D.magnitude ⟨(1 / 10 ^ 60 : ℚ) / m, 0, 0⟩ f2 = .ok r := hr
  have hub : r ≤ (1 / 10 ^ 60 : ℚ) / m + convergence_threshold := by
    refine decimal_sqrt_ub hux0 (by ring) ?_ f2 r hr
    have h3 : (1 / 10 ^ 60 / m : ℚ) * (1 / 10 ^ 60 / m) ≤ (1 / 10 ^ 14 : ℚ) * (1 / 10 ^ 14) :=
      mul_le_mul huxub huxub hux0.le (by norm_num)
    nlinarith [h3]
  refine ⟨f1, f2, ⟨(1 / 10 ^ 60 : ℚ) / m, 0, 0⟩, r, ?_, hmagu, ?_⟩
  · simpa [zero_div] using hnorm
  · have hrlt : r < 1 / 2 := by linarith
    rw [abs_of_neg (by linarith : r - 1 < 0)]
    linarith

end DecimalPhysics
